import Mathlib

/-!
Shallow embedding of the QueryMind RAG pipeline
(`backend/utils/database.py`, `backend/utils/rag.py`,
`backend/utils/document_processor.py`, `backend/api/main.py`).

External collaborators (the OpenAI embedder, the language model, the
langchain text splitter, the PDF reader and the OCR engine) are passed in as
function parameters; the PostgreSQL/pgvector store is modelled by an explicit
state and, for `ORDER BY ... LIMIT`, by a result relation, because SQL leaves
the relative order of rows with equal sort keys unspecified.
-/

namespace QueryMind

set_option maxRecDepth 10000

/-- One row of the `document_chunks` table (`database.py`, class
`DocumentChunk`).  The serial primary key `id` reflects insertion order.
Embedding coordinates are modelled as integers; this loses no generality
for the ordering questions below, because cosine distance is invariant under
scaling each vector by a positive constant, so any finite-precision vector
can be rescaled to an integer one. -/
structure ChunkRow where
  id : Nat
  document_id : Nat
  text : String
  chunk_index : Nat
  page_number : Nat
  embedding : List ℤ
deriving DecidableEq, Repr

/-- One row of the `documents` table (`database.py`, class `Document`). -/
structure DocRow where
  id : Nat
  filename : String
  total_pages : Nat
deriving DecidableEq, Repr

/-- The database state: the two tables, each kept in insertion order,
plus the next serial ids. -/
structure DbState where
  docs : List DocRow
  chunks : List ChunkRow
  nextDocId : Nat
  nextChunkId : Nat
deriving DecidableEq, Repr

/-- Dot product of two vectors, `∑ uᵢ·vᵢ` over the common prefix. -/
def dot (u v : List ℤ) : ℤ := (List.zipWith (· * ·) u v).sum

/-- Decides `cosineDistance u q ≤ cosineDistance v q`, i.e.
`dot u q / ‖u‖ ≥ dot v q / ‖v‖`, without square roots: multiply out to
`dot u q * ‖v‖ ≥ dot v q * ‖u‖` and compare by sign and then by squares.
This is the ordering pgvector's `cosine_distance` induces on rows
(for vectors of positive norm); see `cosDistLeB_iff_cosineDistance_le`. -/
def cosDistLeB (q u v : List ℤ) : Bool :=
  let a := dot u q
  let b := dot v q
  if 0 ≤ a then
    if b < 0 then true else decide (b ^ 2 * dot u u ≤ a ^ 2 * dot v v)
  else
    if 0 ≤ b then false else decide (a ^ 2 * dot v v ≤ b ^ 2 * dot u u)

/-- Cosine distance `1 - u·v / (‖u‖·‖v‖)` as a real number, the metric named
by `DocumentChunk.embedding.cosine_distance` in `semantic_search`. -/
noncomputable def cosineDistance (u v : List ℤ) : ℝ :=
  1 - (dot u v : ℝ) / (Real.sqrt (dot u u : ℤ) * Real.sqrt (dot v v : ℤ))

/-- Row `u` sorts no later than row `v` under
`ORDER BY embedding <=> query` (cosine distance to `q`). -/
def distLE (q : List ℤ) (u v : ChunkRow) : Prop :=
  cosDistLeB q u.embedding v.embedding = true

instance (q : List ℤ) (u v : ChunkRow) : Decidable (distLE q u v) := by
  unfold distLE; infer_instance

/-- Model of `semantic_search` (`database.py` lines 98–113), which runs
`SELECT * FROM document_chunks ORDER BY cosine_distance(embedding, q) LIMIT n`.
SQL fixes only the sort key, so the result is *some* distance-sorted
permutation of the table, truncated to `n`; rows with equal distance may
appear in any relative order. -/
def searchOk (store : List ChunkRow) (q : List ℤ) (n : Nat)
    (res : List ChunkRow) : Prop :=
  ∃ l : List ChunkRow, l.Perm store ∧ List.Sorted (distLE q) l ∧ res = l.take n

/-- Errors surfaced by the store. `negativeLimit` is PostgreSQL's
`LIMIT must not be negative` error, raised when a negative `limit`
reaches the database. -/
inductive SearchError where
  | negativeLimit
deriving DecidableEq, Repr

/-- Result relation for `semantic_search(query_embedding, limit)`:
a negative `limit` is passed through to PostgreSQL, which rejects it;
otherwise the query returns a distance-sorted `limit`-prefix. -/
def semanticSearch (store : List ChunkRow) (q : List ℤ) (limit : Int)
    (res : Except SearchError (List ChunkRow)) : Prop :=
  if limit < 0 then res = .error .negativeLimit
  else ∃ out, res = .ok out ∧ searchOk store q limit.toNat out

/-- The dict shape built by `retrieve_relevant_chunks` (`rag.py` lines 51–58):
the chunk stripped of its raw embedding. -/
structure RetrievedChunk where
  text : String
  document_id : Nat
  page_number : Nat
  chunk_index : Nat
deriving DecidableEq, Repr

/-- The per-chunk formatting step of `retrieve_relevant_chunks`. -/
def toRetrieved (c : ChunkRow) : RetrievedChunk :=
  { text := c.text
    document_id := c.document_id
    page_number := c.page_number
    chunk_index := c.chunk_index }

/-- Model of `retrieve_relevant_chunks(query, top_k)` (`rag.py` lines 33–60):
embed the query (the embedder is an external collaborator, passed as a
function), call `semantic_search` with `limit=top_k` — there is no
validation of `top_k` anywhere on this path — and map rows to dicts. -/
def retrieveRelevantChunks (embedder : String → List ℤ)
    (store : List ChunkRow) (query : String) (top_k : Int)
    (res : Except SearchError (List RetrievedChunk)) : Prop :=
  ∃ raw, semanticSearch store (embedder query) top_k raw ∧
    res = raw.map (List.map toRetrieved)

/-- The fixed fallback answer of `answer_query` (`rag.py` line 134). -/
def fallbackAnswer : String :=
  "I couldn't find any relevant information in the documents to answer your question."

/-- The `text_snippet` computation of `answer_query` (`rag.py` line 144):
`chunk["text"][:200] + "..." if len(chunk["text"]) > 200 else chunk["text"]`. -/
def snippet (t : String) : String :=
  if t.length > 200 then t.take 200 ++ "..." else t

/-- One entry of the `sources` list returned by `answer_query`. -/
structure SourceEntry where
  document_id : Nat
  page_number : Nat
  text_snippet : String
deriving DecidableEq, Repr

/-- The per-chunk `sources` formatting of `answer_query` (lines 139–145). -/
def mkSource (c : RetrievedChunk) : SourceEntry :=
  { document_id := c.document_id
    page_number := c.page_number
    text_snippet := snippet c.text }

/-- The `{answer, sources}` dict returned by `answer_query`. -/
structure AnswerResult where
  answer : String
  sources : List SourceEntry
deriving DecidableEq, Repr

/-- Model of `answer_query(query)` (`rag.py` lines 119–150): retrieve with the default
`top_k = 5`; if no chunks came back, use the fixed fallback answer, otherwise
call the language model (`generate_answer`, passed as the collaborator `llm`);
then format `sources` from the same chunk list.  A retrieval error
propagates. -/
def answerQuery (embedder : String → List ℤ)
    (llm : String → List RetrievedChunk → String)
    (store : List ChunkRow) (query : String)
    (res : Except SearchError AnswerResult) : Prop :=
  ∃ raw, retrieveRelevantChunks embedder store query 5 raw ∧
    res = raw.map (fun chunks =>
      { answer := if chunks.isEmpty then fallbackAnswer else llm query chunks
        sources := chunks.map mkSource })

/-- The dict built per chunk by `chunk_text`
(`document_processor.py` lines 112–117). -/
structure PageChunk where
  text : String
  page_number : Nat
  chunk_index : Nat
deriving DecidableEq, Repr

/-- The body of `chunk_text`'s outer loop for one `(page_num, page_text)`
pair: an empty string is skipped (`if not page_text: continue` — Python
falsiness of `str` is emptiness), otherwise the langchain splitter (external
collaborator `splitter`) is applied and its pieces are enumerated from 0. -/
def pageChunks (splitter : String → List String) (pageNum : Nat)
    (pageText : String) : List PageChunk :=
  if pageText = "" then []
  else (splitter pageText).enum.map fun p =>
    { text := p.2, page_number := pageNum + 1, chunk_index := p.1 }

/-- Model of `chunk_text(texts, ...)` (`document_processor.py` lines 86–119):
enumerate the per-page texts and concatenate each page's chunk dicts. -/
def chunkText (splitter : String → List String) (texts : List String) :
    List PageChunk :=
  (texts.enum.map fun p => pageChunks splitter p.1 p.2).flatten

/-- Outcome of the OCR attempt for one page inside `extract_text_from_pdf`
(lines 66–77): the `try` block raises, `convert_from_path` returns no
images (the extracted text is left as it was), or OCR produces a string. -/
inductive OcrOutcome where
  | raised
  | noImages
  | made (text : String)
deriving DecidableEq, Repr

/-- The placeholder written when OCR raises for a page (line 77);
`pageNum` is 0-based here, the message shows it 1-based. -/
def ocrFailedPlaceholder (pageNum : Nat) : String :=
  "[Failed to extract text from page " ++ toString (pageNum + 1) ++ "]"

/-- The placeholder written when the page has no direct text and Poppler is
unavailable (line 80). -/
def noPopplerPlaceholder (pageNum : Nat) : String :=
  "[Text extraction failed for page " ++ toString (pageNum + 1) ++
    ". Poppler not available for OCR.]"

/-- Python's `not text.strip()` test: true iff every character is
whitespace (so `strip` would leave the empty string). -/
def isBlank (s : String) : Bool := s.data.all Char.isWhitespace

/-- The per-page body of `extract_text_from_pdf`'s loop (lines 60–82):
`direct` is what `page.extract_text()` returned for this page.  The Python
`if not text.strip() and poppler_available: ... elif not text.strip() and
not poppler_available: ... ` chain is written with the shared
`not text.strip()` test factored out. -/
def extractPageText (popplerAvailable : Bool) (ocr : Nat → OcrOutcome)
    (pageNum : Nat) (direct : String) : String :=
  if isBlank direct then
    if popplerAvailable then
      match ocr pageNum with
      | .raised => ocrFailedPlaceholder pageNum
      | .noImages => direct
      | .made t => t
    else noPopplerPlaceholder pageNum
  else direct

/-- Model of `extract_text_from_pdf(pdf_path)` (`document_processor.py` lines 43–84):
the PDF reader (collaborator) yields `pages`, the direct text of each page in
order; the function returns the per-page texts after the OCR fallback, paired
with `total_pages = len(pdf_reader.pages)`. -/
def extractTextFromPdf (popplerAvailable : Bool) (ocr : Nat → OcrOutcome)
    (pages : List String) : List String × Nat :=
  ((pages.enum.map fun p => extractPageText popplerAvailable ocr p.1 p.2),
    pages.length)

/-- A chunk dict as produced by `process_pdf` (text, provenance, and the
embedding added by `create_embeddings`). -/
structure ChunkData where
  text : String
  page_number : Nat
  chunk_index : Nat
  embedding : List ℤ
deriving DecidableEq, Repr

/-- The dict returned by `process_pdf` (`document_processor.py` 168–172). -/
structure ProcessedDoc where
  filename : String
  total_pages : Nat
  chunks : List ChunkData
deriving DecidableEq, Repr

/-- Model of `store_document(filename, total_pages)` (`database.py` lines 66–76): opens
its own session, adds one row and commits it immediately.  `fault` models the
commit failing (the session is closed, nothing is written); on success the
committed row is visible to everyone at once and the row (with its serial id)
is returned. -/
def storeDocument (fault : Bool) (st : DbState) (filename : String)
    (total_pages : Nat) : Except Unit (DbState × Nat) :=
  if fault then .error () else
    .ok ({ st with
            docs := st.docs ++ [⟨st.nextDocId, filename, total_pages⟩]
            nextDocId := st.nextDocId + 1 },
         st.nextDocId)

/-- Model of `store_chunk(document_id, text, chunk_index, page_number, embedding)`
(`database.py` lines 79–95): likewise one row, one session, one immediate
commit; a failing commit writes nothing and raises. -/
def storeChunk (fault : Bool) (st : DbState) (document_id : Nat)
    (text : String) (chunk_index page_number : Nat) (embedding : List ℤ) :
    Except Unit DbState :=
  if fault then .error () else
    .ok { st with
           chunks := st.chunks ++
             [⟨st.nextChunkId, document_id, text, chunk_index, page_number,
               embedding⟩]
           nextChunkId := st.nextChunkId + 1 }

/-- The inner loop of `ingest_documents` (`main.py` lines 127–134): store the
chunks of one document one call at a time; the first exception aborts the
loop, leaving every previously committed chunk in place.  `chunkFault n`
says whether the n-th `store_chunk` call of the request fails; the counter
`cnt` is threaded through.  Returns the success flag, the state after the
last committed call, and the updated counter. -/
def storeChunksLoop (chunkFault : Nat → Bool) (docId : Nat) :
    List ChunkData → DbState → Nat → Except Unit Unit × DbState × Nat
  | [], st, cnt => (.ok (), st, cnt)
  | c :: rest, st, cnt =>
    match storeChunk (chunkFault cnt) st docId c.text c.chunk_index
        c.page_number c.embedding with
    | .error _ => (.error (), st, cnt + 1)
    | .ok st' => storeChunksLoop chunkFault docId rest st' (cnt + 1)

/-- One item of the `documents` list in the ingestion response
(`main.py` lines 136–140). -/
structure DocSummary where
  filename : String
  total_pages : Nat
  total_chunks : Nat
deriving DecidableEq, Repr

/-- The `HTTPException`s raised by `ingest_documents`: the two 400
validations and the 500 wrapping any exception thrown while processing a
file. -/
inductive IngestError where
  | tooFewFiles
  | notPdf (filename : String)
  | processingError (filename : String)
deriving DecidableEq, Repr

/-- One uploaded file as `ingest_documents` sees it: the client-supplied
filename and the bytes that get written to the temp file. -/
structure FilePayload where
  filename : String
  content : String
deriving DecidableEq, Repr

/-- The body of `ingest_documents`' per-file `try` block (lines 116–140):
run `process_pdf` (collaborator, may raise), then `store_document`, then the
chunk loop; any exception leaves already-committed rows behind and is
reported.  `dcnt`/`ccnt` count the `store_document`/`store_chunk` calls made
so far in this request, for the fault schedules. -/
def ingestOne (processPdf : String → Except String ProcessedDoc)
    (docFault chunkFault : Nat → Bool) (file : FilePayload) (st : DbState)
    (dcnt ccnt : Nat) : Except Unit DocSummary × DbState × Nat × Nat :=
  match processPdf file.content with
  | .error _ => (.error (), st, dcnt, ccnt)
  | .ok pd =>
    match storeDocument (docFault dcnt) st pd.filename pd.total_pages with
    | .error _ => (.error (), st, dcnt + 1, ccnt)
    | .ok (st', docId) =>
      match storeChunksLoop chunkFault docId pd.chunks st' ccnt with
      | (.error _, st'', ccnt') => (.error (), st'', dcnt + 1, ccnt')
      | (.ok _, st'', ccnt') =>
        (.ok ⟨pd.filename, pd.total_pages, pd.chunks.length⟩, st'',
          dcnt + 1, ccnt')

/-- The `for file in files` loop of `ingest_documents` (lines 110–158): files
are processed in order; the first failure raises an `HTTPException` that
aborts the whole request — there is no rollback of anything already
committed, by this file or by earlier files. -/
def ingestLoop (processPdf : String → Except String ProcessedDoc)
    (docFault chunkFault : Nat → Bool) :
    List FilePayload → DbState → Nat → Nat → List DocSummary →
    Except IngestError (List DocSummary) × DbState
  | [], st, _, _, acc => (.ok acc, st)
  | f :: rest, st, dcnt, ccnt, acc =>
    match ingestOne processPdf docFault chunkFault f st dcnt ccnt with
    | (.error _, st', _, _) => (.error (.processingError f.filename), st')
    | (.ok s, st', dcnt', ccnt') =>
      ingestLoop processPdf docFault chunkFault rest st' dcnt' ccnt'
        (acc ++ [s])

/-- The `file.filename.lower().endswith('.pdf')` check (line 100), at the
character-list level: lowercase every character, then test for the `.pdf`
suffix. -/
def isPdfFilename (name : String) : Bool :=
  List.isSuffixOf ".pdf".data (name.data.map Char.toLower)

/-- Model of `ingest_documents(files)` (`main.py` lines 84–163): reject fewer than two
files, then reject any non-`.pdf` filename, both before any temp file,
extraction, embedding or store call; then process the files in order. -/
def ingestDocuments (processPdf : String → Except String ProcessedDoc)
    (docFault chunkFault : Nat → Bool) (files : List FilePayload)
    (st : DbState) : Except IngestError (List DocSummary) × DbState :=
  if files.length < 2 then (.error .tooFewFiles, st)
  else
    match files.find? (fun f => !(isPdfFilename f.filename)) with
    | some f => (.error (.notPdf f.filename), st)
    | none => ingestLoop processPdf docFault chunkFault files st 0 0 []

/-- A 203-character text that is exactly its own 200-character prefix
followed by `"..."` — the edge case on which `answer_query`'s snippet
formatting returns the full stored text of a chunk longer than 200
characters. -/
def longText : String := String.mk (List.replicate 200 'a') ++ "..."

/-- State `st'` extends `st` by appending rows: no row of either table is ever
removed or rewritten, only new rows are committed at the end.  This is the
shape every store operation of the ingestion path preserves. -/
def dbGrows (st st' : DbState) : Prop :=
  (∃ dext, st'.docs = st.docs ++ dext) ∧ ∃ cext, st'.chunks = st.chunks ++ cext

/-! ## Theorems -/

/-- The executable comparison `cosDistLeB` agrees with the real-valued
cosine distance: for vectors of positive norm, `cosDistLeB q u v` decides
`cosineDistance u q ≤ cosineDistance v q`. -/
lemma cosDistLeB_iff_cosineDistance_le (q u v : List ℤ)
    (hu : 0 < dot u u) (hv : 0 < dot v v) (hq : 0 < dot q q) :
    cosDistLeB q u v = true ↔ cosineDistance u q ≤ cosineDistance v q := by
  have hur : (0:ℝ) < (dot u u : ℤ) := by exact_mod_cast hu
  have hvr : (0:ℝ) < (dot v v : ℤ) := by exact_mod_cast hv
  have hqr : (0:ℝ) < (dot q q : ℤ) := by exact_mod_cast hq
  have hus : (0:ℝ) < Real.sqrt (dot u u : ℤ) := Real.sqrt_pos.mpr hur
  have hvs : (0:ℝ) < Real.sqrt (dot v v : ℤ) := Real.sqrt_pos.mpr hvr
  have hqs : (0:ℝ) < Real.sqrt (dot q q : ℤ) := Real.sqrt_pos.mpr hqr
  have huu : Real.sqrt (dot u u : ℤ) * Real.sqrt (dot u u : ℤ) = (dot u u : ℤ) :=
    Real.mul_self_sqrt hur.le
  have hvv : Real.sqrt (dot v v : ℤ) * Real.sqrt (dot v v : ℤ) = (dot v v : ℤ) :=
    Real.mul_self_sqrt hvr.le
  have key : (cosineDistance u q ≤ cosineDistance v q) ↔
      (dot v q : ℝ) * Real.sqrt (dot u u : ℤ) ≤
        (dot u q : ℝ) * Real.sqrt (dot v v : ℤ) := by
    unfold cosineDistance
    rw [sub_le_sub_iff_left, div_le_div_iff₀ (mul_pos hvs hqs) (mul_pos hus hqs),
      ← mul_assoc, ← mul_assoc]
    exact mul_le_mul_right hqs
  rw [key]
  unfold cosDistLeB
  by_cases ha : 0 ≤ dot u q
  · by_cases hb : dot v q < 0
    · simp only [ha, hb, if_true, if_pos]
      have har : (0:ℝ) ≤ (dot u q : ℤ) := by exact_mod_cast ha
      have hbr : ((dot v q : ℤ) : ℝ) < 0 := by exact_mod_cast hb
      constructor
      · intro _
        have h1 : (dot v q : ℝ) * Real.sqrt (dot u u : ℤ) < 0 :=
          mul_neg_of_neg_of_pos hbr hus
        have h2 : (0:ℝ) ≤ (dot u q : ℝ) * Real.sqrt (dot v v : ℤ) :=
          mul_nonneg har hvs.le
        linarith
      · intro _
        trivial
    · have hb' : 0 ≤ dot v q := by omega
      have har : (0:ℝ) ≤ (dot u q : ℤ) := by exact_mod_cast ha
      have hbr : (0:ℝ) ≤ ((dot v q : ℤ) : ℝ) := by exact_mod_cast hb'
      simp only [ha, hb, if_true, if_false, if_pos, decide_eq_true_eq]
      have hsq : ((dot v q : ℝ) * Real.sqrt (dot u u : ℤ) ≤
          (dot u q : ℝ) * Real.sqrt (dot v v : ℤ)) ↔
          ((dot v q : ℝ) * Real.sqrt (dot u u : ℤ)) *
            ((dot v q : ℝ) * Real.sqrt (dot u u : ℤ)) ≤
          ((dot u q : ℝ) * Real.sqrt (dot v v : ℤ)) *
            ((dot u q : ℝ) * Real.sqrt (dot v v : ℤ)) :=
        mul_self_le_mul_self_iff (mul_nonneg hbr hus.le) (mul_nonneg har hvs.le)
      rw [hsq]
      have e1 : ((dot v q : ℝ) * Real.sqrt (dot u u : ℤ)) *
          ((dot v q : ℝ) * Real.sqrt (dot u u : ℤ)) =
          (dot v q : ℝ) ^ 2 * ((dot u u : ℤ) : ℝ) := by
        rw [show ∀ x y : ℝ, (x * y) * (x * y) = (x * x) * (y * y) from
          fun x y => by ring, huu]
        ring
      have e2 : ((dot u q : ℝ) * Real.sqrt (dot v v : ℤ)) *
          ((dot u q : ℝ) * Real.sqrt (dot v v : ℤ)) =
          (dot u q : ℝ) ^ 2 * ((dot v v : ℤ) : ℝ) := by
        rw [show ∀ x y : ℝ, (x * y) * (x * y) = (x * x) * (y * y) from
          fun x y => by ring, hvv]
        ring
      rw [e1, e2]
      constructor
      · intro h
        exact_mod_cast h
      · intro h
        exact_mod_cast h
  · by_cases hb : 0 ≤ dot v q
    · simp only [ha, hb, if_false, if_true, if_pos]
      have har : ((dot u q : ℤ) : ℝ) < 0 := by exact_mod_cast (by omega : dot u q < 0)
      have hbr : (0:ℝ) ≤ ((dot v q : ℤ) : ℝ) := by exact_mod_cast hb
      constructor
      · intro h
        cases h
      · intro h
        have h1 : (dot u q : ℝ) * Real.sqrt (dot v v : ℤ) < 0 :=
          mul_neg_of_neg_of_pos har hvs
        have h2 : (0:ℝ) ≤ (dot v q : ℝ) * Real.sqrt (dot u u : ℤ) :=
          mul_nonneg hbr hus.le
        linarith
    · have ha' : dot u q < 0 := by omega
      have hb' : dot v q < 0 := by omega
      have har : ((dot u q : ℤ) : ℝ) < 0 := by exact_mod_cast ha'
      have hbr : ((dot v q : ℤ) : ℝ) < 0 := by exact_mod_cast hb'
      simp only [ha, hb, if_false, decide_eq_true_eq]
      have hneg : ((dot v q : ℝ) * Real.sqrt (dot u u : ℤ) ≤
          (dot u q : ℝ) * Real.sqrt (dot v v : ℤ)) ↔
          (-((dot u q : ℝ) * Real.sqrt (dot v v : ℤ)) ≤
            -((dot v q : ℝ) * Real.sqrt (dot u u : ℤ))) := by
        constructor
        · intro h; linarith
        · intro h; linarith
      rw [hneg]
      have hsq : (-((dot u q : ℝ) * Real.sqrt (dot v v : ℤ)) ≤
          -((dot v q : ℝ) * Real.sqrt (dot u u : ℤ))) ↔
          (-((dot u q : ℝ) * Real.sqrt (dot v v : ℤ))) *
            (-((dot u q : ℝ) * Real.sqrt (dot v v : ℤ))) ≤
          (-((dot v q : ℝ) * Real.sqrt (dot u u : ℤ))) *
            (-((dot v q : ℝ) * Real.sqrt (dot u u : ℤ))) := by
        apply mul_self_le_mul_self_iff
        · nlinarith [mul_neg_of_neg_of_pos har hvs]
        · nlinarith [mul_neg_of_neg_of_pos hbr hus]
      rw [hsq]
      have e1 : (-((dot u q : ℝ) * Real.sqrt (dot v v : ℤ))) *
          (-((dot u q : ℝ) * Real.sqrt (dot v v : ℤ))) =
          (dot u q : ℝ) ^ 2 * ((dot v v : ℤ) : ℝ) := by
        rw [show ∀ x y : ℝ, (-(x * y)) * (-(x * y)) = (x * x) * (y * y) from
          fun x y => by ring, hvv]
        ring
      have e2 : (-((dot v q : ℝ) * Real.sqrt (dot u u : ℤ))) *
          (-((dot v q : ℝ) * Real.sqrt (dot u u : ℤ))) =
          (dot v q : ℝ) ^ 2 * ((dot u u : ℤ) : ℝ) := by
        rw [show ∀ x y : ℝ, (-(x * y)) * (-(x * y)) = (x * x) * (y * y) from
          fun x y => by ring, huu]
        ring
      rw [e1, e2]
      constructor
      · intro h
        exact_mod_cast h
      · intro h
        exact_mod_cast h

lemma dbGrows_refl (st : DbState) : dbGrows st st :=
  ⟨⟨[], by simp⟩, ⟨[], by simp⟩⟩

lemma dbGrows_trans {st₁ st₂ st₃ : DbState} (h₁ : dbGrows st₁ st₂)
    (h₂ : dbGrows st₂ st₃) : dbGrows st₁ st₃ := by
  obtain ⟨⟨d₁, hd₁⟩, ⟨c₁, hc₁⟩⟩ := h₁
  obtain ⟨⟨d₂, hd₂⟩, ⟨c₂, hc₂⟩⟩ := h₂
  exact ⟨⟨d₁ ++ d₂, by rw [hd₂, hd₁, List.append_assoc]⟩,
    ⟨c₁ ++ c₂, by rw [hc₂, hc₁, List.append_assoc]⟩⟩

lemma searchOk_nil {q : List ℤ} {n : Nat} {res : List ChunkRow}
    (h : searchOk [] q n res) : res = [] := by
  obtain ⟨l, hperm, -, rfl⟩ := h
  simp [hperm.eq_nil]

lemma searchOk_nil_self (q : List ℤ) (n : Nat) : searchOk [] q n [] :=
  ⟨[], List.Perm.refl _, List.sorted_nil, by simp⟩

/-- Claim C9: an ingestion request with exactly one document payload is
rejected by the `len(files) < 2` validation before any extraction, chunking,
embedding or storage work: the result is the 400 error, the database state is
returned untouched, and the right-hand side does not depend on the
`process_pdf` collaborator or on the store fault schedules, so no such work
is even consulted. -/
theorem claim_C9 (processPdf : String → Except String ProcessedDoc)
    (docFault chunkFault : Nat → Bool) (file : FilePayload) (st : DbState) :
    ingestDocuments processPdf docFault chunkFault [file] st =
      (.error .tooFewFiles, st) := by
  rw [ingestDocuments]
  simp

/-- Claim C1: against an empty corpus, `answer_query` can only return — and
does return — the fixed fallback answer with an empty sources list.  The
characterization is an equivalence, holds for every language-model
collaborator `llm` (so the model is never consulted), and the only reachable
result is an `.ok`, never an error. -/
theorem claim_C1 (embedder : String → List ℤ)
    (llm : String → List RetrievedChunk → String) (query : String)
    (res : Except SearchError AnswerResult) :
    answerQuery embedder llm [] query res ↔
      res = .ok ⟨fallbackAnswer, []⟩ := by
  constructor
  · rintro ⟨raw, ⟨raw', hsearch, rfl⟩, rfl⟩
    rw [semanticSearch, if_neg (by decide)] at hsearch
    obtain ⟨out, rfl, hok⟩ := hsearch
    rw [searchOk_nil hok]
    rfl
  · rintro rfl
    exact ⟨.ok [], ⟨.ok [], by
      rw [semanticSearch, if_neg (by decide)]
      exact ⟨[], rfl, searchOk_nil_self _ _⟩, rfl⟩, rfl⟩

/-- Witness for C1 at a concrete embedder, model and question. -/
theorem claim_C1_witness :
    answerQuery (fun _ => [1]) (fun _ _ => "some model output") []
      "any question" (.ok ⟨fallbackAnswer, []⟩) :=
  (claim_C1 _ _ _ _).mpr rfl

/-- Claim C4 as stated is false; this is the amended version:
`retrieve_relevant_chunks` never validates `top_k`.  `top_k = 0` flows into
`LIMIT 0` and yields the empty list with no error at all, and a negative
`top_k` flows into a negative SQL `LIMIT`, which surfaces as the store's
negative-limit error rather than an input-validation rejection. -/
theorem claim_C4 (embedder : String → List ℤ) (store : List ChunkRow)
    (query : String) (res : Except SearchError (List RetrievedChunk)) :
    (retrieveRelevantChunks embedder store query 0 res → res = .ok []) ∧
    (∀ k : Int, k < 0 → retrieveRelevantChunks embedder store query k res →
      res = .error .negativeLimit) := by
  constructor
  · rintro ⟨raw, hs, rfl⟩
    rw [semanticSearch, if_neg (by decide)] at hs
    obtain ⟨out, rfl, l, -, -, htake⟩ := hs
    simp at htake
    rw [htake]
    rfl
  · rintro k hk ⟨raw, hs, rfl⟩
    rw [semanticSearch, if_pos hk] at hs
    rw [hs]
    rfl

/-- Counterexample to claim C4 as stated: with `top_k = 0 ≤ 0` the retrieve
operation returns the (empty) result list `.ok []` — it is not rejected as
invalid input. -/
theorem claim_C4_cex :
    ¬ ∀ (embedder : String → List ℤ) (store : List ChunkRow) (query : String)
        (k : Int) (res : Except SearchError (List RetrievedChunk)),
        k ≤ 0 → retrieveRelevantChunks embedder store query k res →
        ∃ err, res = .error err := by
  intro hclaim
  obtain ⟨err, habs⟩ :=
    hclaim (fun _ => []) [] "any question" 0 (.ok []) (by decide)
      ⟨.ok [], by
        rw [semanticSearch, if_neg (by decide)]
        exact ⟨[], rfl, searchOk_nil_self _ _⟩, rfl⟩
  cases habs

/-- Witness for C4 (amended): a concrete retrieval with `top_k = 0` and its
forced `.ok []` outcome. -/
theorem claim_C4_witness :
    retrieveRelevantChunks (fun _ => []) [] "any question" 0 (.ok []) ∧
    ((Except.ok ([] : List RetrievedChunk) :
        Except SearchError (List RetrievedChunk)) = .ok []) := by
  have h : retrieveRelevantChunks (fun _ => []) [] "any question" 0
      (.ok []) := ⟨.ok [], by
    rw [semanticSearch, if_neg (by decide)]
    exact ⟨[], rfl, searchOk_nil_self _ _⟩, rfl⟩
  exact ⟨h, (claim_C4 (fun _ => []) [] "any question" (.ok [])).1 h⟩

/-- Claim C5: for `k ≥ 1`, whatever `semantic_search` returns is an `.ok`
(never an error); it is ranked by cosine distance; if `k` exceeds the chunk
count it is a permutation of the whole store (all `N` chunks); and over an
empty store it is empty. -/
theorem claim_C5 (store : List ChunkRow) (q : List ℤ) (k : Int)
    (hk : 1 ≤ k) (res : Except SearchError (List ChunkRow))
    (h : semanticSearch store q k res) :
    ∃ l, res = .ok l ∧ List.Sorted (distLE q) l ∧
      ((store.length : Int) < k → l.Perm store) ∧ (store = [] → l = []) := by
  rw [semanticSearch, if_neg (by omega)] at h
  obtain ⟨out, rfl, l, hperm, hsort, rfl⟩ := h
  refine ⟨l.take k.toNat, rfl,
    List.Pairwise.sublist (List.take_sublist _ _) hsort, ?_, ?_⟩
  · intro hlt
    have hlen : l.length = store.length := hperm.length_eq
    have hle : l.length ≤ k.toNat := by omega
    rw [List.take_of_length_le hle]
    exact hperm
  · rintro rfl
    simp [hperm.eq_nil]

/-- Witness for C5: a one-chunk store searched with `k = 5 > 1 = N`. -/
theorem claim_C5_witness :
    (1 : Int) ≤ 5 ∧
    semanticSearch [⟨0, 1, "alpha", 0, 1, [1]⟩] [1] 5
      (.ok [⟨0, 1, "alpha", 0, 1, [1]⟩]) ∧
    ∃ l, (Except.ok [(⟨0, 1, "alpha", 0, 1, [1]⟩ : ChunkRow)] :
        Except SearchError (List ChunkRow)) = .ok l ∧
      List.Sorted (distLE [1]) l ∧
      ((([(⟨0, 1, "alpha", 0, 1, [1]⟩ : ChunkRow)] : List ChunkRow).length :
          Int) < 5 → l.Perm [⟨0, 1, "alpha", 0, 1, [1]⟩]) ∧
      ([(⟨0, 1, "alpha", 0, 1, [1]⟩ : ChunkRow)] = ([] : List ChunkRow) →
        l = []) := by
  have h : semanticSearch [⟨0, 1, "alpha", 0, 1, [1]⟩] [1] 5
      (.ok [⟨0, 1, "alpha", 0, 1, [1]⟩]) := by
    rw [semanticSearch, if_neg (by decide)]
    exact ⟨[⟨0, 1, "alpha", 0, 1, [1]⟩], rfl,
      ⟨[⟨0, 1, "alpha", 0, 1, [1]⟩], List.Perm.refl _, by decide, rfl⟩⟩
  exact ⟨by decide, h, claim_C5 _ _ _ (by decide) _ h⟩

/-- Claim C3 as stated is false; this is the amended version: the query
orders rows by cosine distance *only* — there is no secondary sort key — so
every possible result is a distance-ranked selection of `min k N` rows drawn
from the store, but rows at equal distance come back in an order the query
does not fix (and hence not necessarily insertion order, nor the same order
on a repeated identical query). -/
theorem claim_C3 (store : List ChunkRow) (q : List ℤ) (k : Int)
    (hk : 0 ≤ k) (out : List ChunkRow)
    (h : semanticSearch store q k (.ok out)) :
    List.Sorted (distLE q) out ∧ out.Subperm store ∧
      out.length = min k.toNat store.length := by
  rw [semanticSearch, if_neg (by omega)] at h
  obtain ⟨out', heq, l, hperm, hsort, htake⟩ := h
  simp only [Except.ok.injEq] at heq
  subst heq
  subst htake
  refine ⟨List.Pairwise.sublist (List.take_sublist _ _) hsort,
    ((List.take_sublist _ _).subperm).trans hperm.subperm, ?_⟩
  rw [List.length_take, hperm.length_eq]

/-- Counterexample to claim C3 as stated: a store with two chunks whose
embeddings are identical (hence at identical cosine distance from the query)
admits two distinct valid search results — one in insertion order, one not —
so the SQL `ORDER BY cosine_distance(...) LIMIT k` does not make two
identical searches agree, and does not break ties by insertion order. -/
theorem claim_C3_cex :
    ¬ ∀ (store : List ChunkRow) (q : List ℤ) (k : Int)
        (res₁ res₂ : Except SearchError (List ChunkRow)),
        semanticSearch store q k res₁ → semanticSearch store q k res₂ →
        res₁ = res₂ := by
  intro hclaim
  have rel1 : semanticSearch
      [⟨0, 1, "first inserted", 0, 1, [1]⟩, ⟨1, 1, "second inserted", 1, 1, [1]⟩]
      [1] 2 (.ok [⟨0, 1, "first inserted", 0, 1, [1]⟩,
        ⟨1, 1, "second inserted", 1, 1, [1]⟩]) := by
    rw [semanticSearch, if_neg (by decide)]
    exact ⟨_, rfl, ⟨[⟨0, 1, "first inserted", 0, 1, [1]⟩,
      ⟨1, 1, "second inserted", 1, 1, [1]⟩], by decide, by decide, by decide⟩⟩
  have rel2 : semanticSearch
      [⟨0, 1, "first inserted", 0, 1, [1]⟩, ⟨1, 1, "second inserted", 1, 1, [1]⟩]
      [1] 2 (.ok [⟨1, 1, "second inserted", 1, 1, [1]⟩,
        ⟨0, 1, "first inserted", 0, 1, [1]⟩]) := by
    rw [semanticSearch, if_neg (by decide)]
    exact ⟨_, rfl, ⟨[⟨1, 1, "second inserted", 1, 1, [1]⟩,
      ⟨0, 1, "first inserted", 0, 1, [1]⟩], by decide, by decide, by decide⟩⟩
  have h := hclaim _ _ _ _ _ rel1 rel2
  simp at h

/-- Witness for C3 (amended): a concrete one-chunk search, ranked and drawn
from the store. -/
theorem claim_C3_witness :
    (0 : Int) ≤ 1 ∧
    semanticSearch [⟨0, 2, "beta", 0, 1, [1, 2]⟩] [1, 2] 1
      (.ok [⟨0, 2, "beta", 0, 1, [1, 2]⟩]) ∧
    (List.Sorted (distLE [1, 2]) [⟨0, 2, "beta", 0, 1, [1, 2]⟩] ∧
      List.Subperm [(⟨0, 2, "beta", 0, 1, [1, 2]⟩ : ChunkRow)]
        [⟨0, 2, "beta", 0, 1, [1, 2]⟩] ∧
      ([(⟨0, 2, "beta", 0, 1, [1, 2]⟩ : ChunkRow)] : List ChunkRow).length =
        min (Int.toNat 1)
          ([(⟨0, 2, "beta", 0, 1, [1, 2]⟩ : ChunkRow)] : List ChunkRow).length) := by
  have h : semanticSearch [⟨0, 2, "beta", 0, 1, [1, 2]⟩] [1, 2] 1
      (.ok [⟨0, 2, "beta", 0, 1, [1, 2]⟩]) := by
    rw [semanticSearch, if_neg (by decide)]
    exact ⟨_, rfl, ⟨[⟨0, 2, "beta", 0, 1, [1, 2]⟩], by decide, by decide,
      by decide⟩⟩
  exact ⟨by decide, h, claim_C3 _ _ _ (by decide) _ h⟩

/-- Claim C10: `extract_text_from_pdf` returns one text entry per page, in
page order — the list's length always equals the returned `total_pages`,
which is the reader's page count; the `i`-th entry is exactly the per-page
fallback computation applied to the `i`-th page; and a page with no
extractable text still contributes an entry: the no-Poppler placeholder when
OCR is unavailable, the failure placeholder when OCR raises.  The function
is total, so no page ever shrinks the list. -/
theorem claim_C10 (popplerAvailable : Bool) (ocr : Nat → OcrOutcome)
    (pages : List String) :
    (extractTextFromPdf popplerAvailable ocr pages).1.length =
      (extractTextFromPdf popplerAvailable ocr pages).2 ∧
    (extractTextFromPdf popplerAvailable ocr pages).2 = pages.length ∧
    (∀ i : Nat, (extractTextFromPdf popplerAvailable ocr pages).1[i]? =
      (pages[i]?).map (extractPageText popplerAvailable ocr i)) ∧
    (∀ i : Nat, ∀ d ∈ pages[i]?, isBlank d → popplerAvailable = false →
      (extractTextFromPdf popplerAvailable ocr pages).1[i]? =
        some (noPopplerPlaceholder i)) ∧
    (∀ i : Nat, ∀ d ∈ pages[i]?, isBlank d → popplerAvailable = true →
      ocr i = .raised →
      (extractTextFromPdf popplerAvailable ocr pages).1[i]? =
        some (ocrFailedPlaceholder i)) := by
  have hmap : ∀ i : Nat,
      (extractTextFromPdf popplerAvailable ocr pages).1[i]? =
        (pages[i]?).map (extractPageText popplerAvailable ocr i) := by
    intro i
    show ((pages.enum.map _)[i]?) = _
    rw [List.getElem?_map, List.getElem?_enum]
    cases pages[i]? <;> rfl
  refine ⟨by simp [extractTextFromPdf], rfl, hmap, ?_, ?_⟩
  · intro i d hd hblank hpa
    rw [hmap i, Option.mem_def.mp hd]
    subst hpa
    simp [extractPageText, hblank]
  · intro i d hd hblank hpa hraised
    rw [hmap i, Option.mem_def.mp hd]
    subst hpa
    simp [extractPageText, hblank, hraised]

/-- Witness for C10: a blank first page with no Poppler gets the no-Poppler
placeholder, and with Poppler but a raising OCR gets the failure
placeholder. -/
theorem claim_C10_witness :
    (extractTextFromPdf false (fun _ => .raised) ["", "some page text"]).1[0]? =
      some (noPopplerPlaceholder 0) ∧
    (extractTextFromPdf true (fun _ => .raised) [" \t "]).1[0]? =
      some (ocrFailedPlaceholder 0) :=
  ⟨(claim_C10 false (fun _ => .raised) ["", "some page text"]).2.2.2.1 0 ""
      (by decide) (by decide) rfl,
    (claim_C10 true (fun _ => .raised) [" \t "]).2.2.2.2 0 " \t "
      (by decide) (by decide) rfl rfl⟩

lemma pageChunks_page_number {splitter : String → List String} {n : Nat}
    {t : String} : ∀ c ∈ pageChunks splitter n t, c.page_number = n + 1 := by
  intro c hc
  unfold pageChunks at hc
  split at hc
  · simp at hc
  · simp only [List.mem_map] at hc
    obtain ⟨q, -, rfl⟩ := hc
    rfl

lemma filter_pageChunks (splitter : String → List String) (n p : Nat)
    (t : String) :
    (pageChunks splitter n t).filter (fun c => c.page_number == p + 1) =
      if n = p then pageChunks splitter p t else [] := by
  split
  · next h =>
    subst h
    refine List.filter_eq_self.mpr fun c hc => ?_
    simpa using pageChunks_page_number c hc
  · next h =>
    refine List.filter_eq_nil_iff.mpr fun c hc => ?_
    have := pageChunks_page_number c hc
    simp [this]
    omega

lemma chunkText_filter_aux (splitter : String → List String) (p : Nat) :
    ∀ (ts : List String) (s : Nat),
      (((List.enumFrom s ts).map fun q =>
          pageChunks splitter q.1 q.2).flatten).filter
        (fun c => c.page_number == p + 1) =
      if s ≤ p then ((ts[p - s]?).map (pageChunks splitter p)).getD []
      else []
  | [], s => by simp
  | t :: ts, s => by
    rw [show List.enumFrom s (t :: ts) = (s, t) :: List.enumFrom (s + 1) ts
        from rfl,
      List.map_cons, List.flatten_cons, List.filter_append,
      filter_pageChunks, chunkText_filter_aux splitter p ts (s + 1)]
    by_cases hsp : s = p
    · subst hsp
      simp [Nat.sub_self]
    · by_cases hle : s ≤ p
      · have h1 : s + 1 ≤ p := by omega
        have h2 : p - s = (p - (s + 1)) + 1 := by omega
        simp [hsp, hle, h1, h2]
      · have h1 : ¬ s + 1 ≤ p := by omega
        simp [hsp, hle, h1]

/-- The chunks of `chunk_text(texts)` carrying page number `p + 1` are
exactly the chunks produced from page `p` (0-based) of the input. -/
lemma chunkText_filter (splitter : String → List String) (texts : List String)
    (p : Nat) (hp : p < texts.length) :
    (chunkText splitter texts).filter (fun c => c.page_number == p + 1) =
      pageChunks splitter p texts[p] := by
  unfold chunkText
  rw [show texts.enum = List.enumFrom 0 texts from rfl,
    chunkText_filter_aux]
  simp [List.getElem?_eq_getElem hp]

/-- Claim C6: for every input page `p` (0-based), the chunk records the
chunker produces from that page are exactly `pageChunks` of that page's
text; their `chunk_index` values are the contiguous 0-based sequence
`0, 1, 2, ...` with no gaps or duplicates (they equal `List.range` of the
count); and each carries the 1-based page number `p + 1` — so `chunk_index`
is unique within a page. -/
theorem claim_C6 (splitter : String → List String) (texts : List String)
    (p : Nat) (hp : p < texts.length) :
    (chunkText splitter texts).filter (fun c => c.page_number == p + 1) =
      pageChunks splitter p texts[p] ∧
    ((chunkText splitter texts).filter
        (fun c => c.page_number == p + 1)).map (fun c => c.chunk_index) =
      List.range
        ((chunkText splitter texts).filter
          (fun c => c.page_number == p + 1)).length ∧
    ∀ c ∈ (chunkText splitter texts).filter
        (fun c => c.page_number == p + 1), c.page_number = p + 1 := by
  have hfilter := chunkText_filter splitter texts p hp
  refine ⟨hfilter, ?_, ?_⟩
  · rw [hfilter]
    unfold pageChunks
    split
    · simp
    · simp [List.map_map, List.length_map, Function.comp_def,
        List.enum_map_fst]
  · rw [hfilter]
    exact pageChunks_page_number

/-- Witness for C6: a two-page input, page index 1, a splitter cutting each
page in two. -/
theorem claim_C6_witness :
    1 < (["hello world", "second page"] : List String).length ∧
    (chunkText (fun s => [s.take 3, s.drop 3])
        ["hello world", "second page"]).filter
      (fun c => c.page_number == 1 + 1) =
      pageChunks (fun s => [s.take 3, s.drop 3]) 1 "second page" :=
  ⟨by decide,
    (claim_C6 (fun s => [s.take 3, s.drop 3]) ["hello world", "second page"]
      1 (by decide)).1⟩

/-- Claim C7: a page whose text is empty contributes zero chunks (it is
skipped by the `if not page_text: continue` guard), and a page whose text is
non-empty but all-whitespace also contributes zero chunks, because the
langchain splitter — whose contract, assumed here as the hypothesis
`hsplit`, is to strip each produced chunk and drop the empty ones — returns
no pieces for all-whitespace input.  `chunk_text` is a total function, so
such pages never raise. -/
theorem claim_C7 (splitter : String → List String)
    (hsplit : ∀ s : String, isBlank s = true → splitter s = [])
    (texts : List String) (p : Nat) (hp : p < texts.length)
    (hblank : isBlank texts[p] = true) :
    (chunkText splitter texts).filter (fun c => c.page_number == p + 1) =
      [] := by
  rw [chunkText_filter splitter texts p hp]
  unfold pageChunks
  split
  · rfl
  · rw [hsplit _ hblank]
    rfl

/-- Witness for C7: page 1 is whitespace-only and yields no chunks under a
splitter satisfying the strip-and-drop contract. -/
theorem claim_C7_witness :
    isBlank (([" page one ", " \t "] : List String)[1]) = true ∧
    (chunkText (fun s => if isBlank s then [] else [s])
        [" page one ", " \t "]).filter
      (fun c => c.page_number == 1 + 1) = [] :=
  ⟨by decide,
    claim_C7 (fun s => if isBlank s then [] else [s])
      (fun s h => by simp [h]) [" page one ", " \t "] 1 (by decide)
      (by decide)⟩

lemma storeDocument_grows {fault : Bool} {st : DbState} {fn : String}
    {tp : Nat} {st' : DbState} {d : Nat}
    (h : storeDocument fault st fn tp = .ok (st', d)) : dbGrows st st' := by
  unfold storeDocument at h
  split at h
  · cases h
  · cases h
    exact ⟨⟨_, rfl⟩, ⟨[], by simp⟩⟩

lemma storeChunk_grows {fault : Bool} {st : DbState} {d : Nat} {t : String}
    {ci pn : Nat} {e : List ℤ} {st' : DbState}
    (h : storeChunk fault st d t ci pn e = .ok st') : dbGrows st st' := by
  unfold storeChunk at h
  split at h
  · cases h
  · cases h
    exact ⟨⟨[], by simp⟩, ⟨_, rfl⟩⟩

lemma storeChunksLoop_grows (cf : Nat → Bool) (d : Nat) :
    ∀ (pending : List ChunkData) (st : DbState) (cnt : Nat),
      dbGrows st (storeChunksLoop cf d pending st cnt).2.1
  | [], st, cnt => dbGrows_refl st
  | c :: rest, st, cnt => by
    rw [storeChunksLoop]
    rcases h : storeChunk (cf cnt) st d c.text c.chunk_index c.page_number
        c.embedding with - | st'
    · exact dbGrows_refl st
    · exact dbGrows_trans (storeChunk_grows h)
        (storeChunksLoop_grows cf d rest st' (cnt + 1))

lemma ingestOne_grows (processPdf : String → Except String ProcessedDoc)
    (df cf : Nat → Bool) (file : FilePayload) (st : DbState)
    (dcnt ccnt : Nat) :
    dbGrows st (ingestOne processPdf df cf file st dcnt ccnt).2.1 := by
  cases hpp : processPdf file.content with
  | error e =>
    simp only [ingestOne, hpp]
    exact dbGrows_refl st
  | ok pd =>
    cases hsd : storeDocument (df dcnt) st pd.filename pd.total_pages with
    | error e =>
      simp only [ingestOne, hpp, hsd]
      exact dbGrows_refl st
    | ok p =>
      obtain ⟨st', d⟩ := p
      simp only [ingestOne, hpp, hsd]
      have h2 := storeChunksLoop_grows cf d pd.chunks st' ccnt
      rcases hloop : storeChunksLoop cf d pd.chunks st' ccnt
          with ⟨flag, st'', ccnt'⟩
      rw [hloop] at h2
      rcases flag with e | s
      · exact dbGrows_trans (storeDocument_grows hsd) h2
      · exact dbGrows_trans (storeDocument_grows hsd) h2

lemma ingestLoop_grows (processPdf : String → Except String ProcessedDoc)
    (df cf : Nat → Bool) :
    ∀ (files : List FilePayload) (st : DbState) (dcnt ccnt : Nat)
      (acc : List DocSummary),
      dbGrows st (ingestLoop processPdf df cf files st dcnt ccnt acc).2
  | [], st, dcnt, ccnt, acc => dbGrows_refl st
  | f :: rest, st, dcnt, ccnt, acc => by
    rw [ingestLoop]
    have hone := ingestOne_grows processPdf df cf f st dcnt ccnt
    rcases hfr : ingestOne processPdf df cf f st dcnt ccnt
        with ⟨flag, st', dcnt', ccnt'⟩
    rw [hfr] at hone
    rcases flag with e | s
    · exact hone
    · exact dbGrows_trans hone
        (ingestLoop_grows processPdf df cf rest st' dcnt' ccnt' (acc ++ [s]))

/-- Claim C2 as stated is false; this is the amended version: ingestion is
not transactional but append-only.  Each document row and each chunk is
committed in its own session as soon as it is written, and no failure ever
removes anything: after any ingestion attempt the tables are exactly the
initial tables plus the rows committed before the first failure (if any).
In particular a failure during chunk storage leaves the already-committed
document row with only a prefix of its chunks — the partial write is *not*
rolled back. -/
theorem claim_C2 (processPdf : String → Except String ProcessedDoc)
    (docFault chunkFault : Nat → Bool) (files : List FilePayload)
    (st : DbState) :
    dbGrows st (ingestDocuments processPdf docFault chunkFault files st).2 := by
  rw [ingestDocuments]
  split
  · exact dbGrows_refl st
  · split
    · exact dbGrows_refl st
    · exact ingestLoop_grows processPdf docFault chunkFault files st 0 0 []

/-- Counterexample to claim C2 as stated: a two-file request whose first
document produces two chunks, with the second `store_chunk` commit failing.
The request errors out, yet the final state keeps the document row (serial
id 1) together with just one of its two chunks (chunk_index 0) — a document
row without all of its chunks persists, so ingestion is not all-or-nothing
and nothing was rolled back. -/
theorem claim_C2_cex :
    ingestDocuments
        (fun _ => .ok ⟨"tmp.pdf", 1,
          [⟨"chunk zero", 1, 0, [1]⟩, ⟨"chunk one", 1, 1, [1]⟩]⟩)
        (fun _ => false) (fun n => n == 1)
        [⟨"a.pdf", "file A bytes"⟩, ⟨"b.pdf", "file B bytes"⟩]
        ⟨[], [], 1, 1⟩ =
      (.error (.processingError "a.pdf"),
        ⟨[⟨1, "tmp.pdf", 1⟩], [⟨1, 1, "chunk zero", 0, 1, [1]⟩], 2, 2⟩) ∧
    ([⟨1, "tmp.pdf", 1⟩] : List DocRow).map (fun r => r.id) = [1] ∧
    ([(⟨1, 1, "chunk zero", 0, 1, [1]⟩ : ChunkRow)].map
      (fun c => c.chunk_index)) = [0] := by
  exact ⟨rfl, rfl, rfl⟩

/-- The snippet is always at most 203 characters: the 200-character prefix
plus the three-character ellipsis, or the short text itself. -/
lemma snippet_length_le (t : String) : (snippet t).length ≤ 203 := by
  unfold snippet
  split
  · next h =>
    rw [String.length_append, String.take_eq]
    have h1 : (String.mk (t.1.take 200)).length = min 200 t.1.length :=
      List.length_take 200 t.1
    have h2 : ("..." : String).length = 3 := rfl
    omega
  · next h => omega

/-- Claim C8 as stated is false on one edge case; this is the amended
version: for a result that came back `.ok`, the `sources` list is exactly
the retrieved chunk list mapped through the per-chunk formatting
`{document_id, page_number, text_snippet}`, where `text_snippet` is the full
chunk text when it has at most 200 characters and otherwise the
200-character prefix followed by `"..."`; every snippet is bounded by 203
characters — but for a longer chunk the snippet is not literally "never the
full stored text": it coincides with it when the text is exactly its own
200-character prefix plus `"..."` (see the counterexample). -/
theorem claim_C8 (embedder : String → List ℤ)
    (llm : String → List RetrievedChunk → String) (store : List ChunkRow)
    (query : String) (res : Except SearchError AnswerResult)
    (r : AnswerResult) (h : answerQuery embedder llm store query res)
    (hr : res = .ok r) :
    ∃ chunks, retrieveRelevantChunks embedder store query 5 (.ok chunks) ∧
      r.sources = chunks.map mkSource ∧
      ∀ c ∈ chunks,
        (c.text.length ≤ 200 → (mkSource c).text_snippet = c.text) ∧
        (200 < c.text.length →
          (mkSource c).text_snippet = c.text.take 200 ++ "...") ∧
        (mkSource c).text_snippet.length ≤ 203 := by
  obtain ⟨raw, hret, rfl⟩ := h
  cases raw with
  | error e => cases hr
  | ok chunks =>
    refine ⟨chunks, hret, ?_, ?_⟩
    · have : r = { answer := if chunks.isEmpty then fallbackAnswer
                      else llm query chunks
                   sources := chunks.map mkSource } := by
        simpa [Except.map] using hr.symm
      rw [this]
    · intro c _
      refine ⟨fun hle => ?_, fun hgt => ?_, snippet_length_le c.text⟩
      · simp [mkSource, snippet]
        omega
      · simp [mkSource, snippet, hgt]

/-- Counterexample to claim C8 as stated: a stored chunk whose text is 203
characters long (200 `'a'`s followed by `"..."`) flows through
`answer_query` into a sources entry whose `text_snippet` *is* the full
stored text of that longer-than-200 chunk, because `text[:200] + "..."`
reproduces the text exactly. -/
theorem claim_C8_cex :
    answerQuery (fun _ => [1]) (fun _ _ => "model answer")
      [⟨0, 7, longText, 0, 3, [1]⟩] "any question"
      (.ok ⟨"model answer", [⟨7, 3, longText⟩]⟩) ∧
    200 < longText.length := by
  constructor
  · have hsnip : snippet longText = longText := by decide
    refine ⟨.ok [toRetrieved ⟨0, 7, longText, 0, 3, [1]⟩],
      ⟨.ok [⟨0, 7, longText, 0, 3, [1]⟩], ?_, rfl⟩, ?_⟩
    · rw [semanticSearch, if_neg (by decide)]
      exact ⟨_, rfl, ⟨[⟨0, 7, longText, 0, 3, [1]⟩], List.Perm.refl _,
        List.sorted_singleton _, by simp⟩⟩
    · show Except.ok _ = Except.ok _
      rw [Except.ok.injEq]
      show (⟨"model answer", [⟨7, 3, longText⟩]⟩ : AnswerResult) =
        ⟨"model answer", [mkSource (toRetrieved ⟨0, 7, longText, 0, 3, [1]⟩)]⟩
      rw [show mkSource (toRetrieved ⟨0, 7, longText, 0, 3, [1]⟩) =
        ⟨7, 3, snippet longText⟩ from rfl, hsnip]
  · decide

/-- Witness for C8 (amended): a one-chunk store with a short text; the
sources entry is the chunk's own text. -/
theorem claim_C8_witness :
    ∃ chunks, retrieveRelevantChunks (fun _ => [1])
        [⟨0, 7, "short text", 0, 3, [1]⟩] "any question" 5 (.ok chunks) ∧
      (⟨"model answer", [⟨7, 3, "short text"⟩]⟩ : AnswerResult).sources =
        chunks.map mkSource ∧
      ∀ c ∈ chunks,
        (c.text.length ≤ 200 → (mkSource c).text_snippet = c.text) ∧
        (200 < c.text.length →
          (mkSource c).text_snippet = c.text.take 200 ++ "...") ∧
        (mkSource c).text_snippet.length ≤ 203 := by
  have h : answerQuery (fun _ => [1]) (fun _ _ => "model answer")
      [⟨0, 7, "short text", 0, 3, [1]⟩] "any question"
      (.ok ⟨"model answer", [⟨7, 3, "short text"⟩]⟩) := by
    refine ⟨.ok [toRetrieved ⟨0, 7, "short text", 0, 3, [1]⟩],
      ⟨.ok [⟨0, 7, "short text", 0, 3, [1]⟩], ?_, rfl⟩, rfl⟩
    rw [semanticSearch, if_neg (by decide)]
    exact ⟨_, rfl, ⟨[⟨0, 7, "short text", 0, 3, [1]⟩], List.Perm.refl _,
      List.sorted_singleton _, by simp⟩⟩
  exact claim_C8 _ _ _ _ _ _ h rfl

end QueryMind
